import Mathlib

/-!
# extended-timestampvm: codec and signature layer

A shallow embedding of `timestampvm/codec.go` and `timestampvm/signature.go`,
together with a model of the block lifecycle that `timestampvm/vm_test.go`
exercises.

Conventions.
* A Go byte is a `Fin 256`; a Go slice `[]byte` is a `List Byte` (the nil slice
  is the empty list); a Go array `[n]byte` is a list of length exactly `n`.
* A Go result `(T, error)` is the pair `T × Option Error`, `none` being `nil`.
* Functions of go-ethereum and of the Go standard library are not part of the
  repository: they are the fields of `Primitives`, and what is known about them
  is stated as explicit contracts.
-/

set_option autoImplicit false

namespace TimestampVM

/-! ## Bytes, arrays, slices -/

/-- A Go `byte`. -/
abbrev Byte := Fin 256

/-- A Go array `[n]byte`: its length is part of the type. -/
abbrev FixedBytes (n : Nat) := { l : List Byte // l.length = n }

/-- The zero value of `[n]byte` (`var hash [32]byte`). -/
def zeroArray (n : Nat) : FixedBytes n :=
  ⟨List.replicate n 0, List.length_replicate n 0⟩

/-- The Go slice expression `a[low:high]`. -/
def sliceOf (a : List Byte) (low high : Nat) : List Byte :=
  (a.take high).drop low

/-- Go's builtin `copy(dst, src)`: the first `min (len dst) (len src)` elements
of `src` overwrite the front of `dst`; the rest of `dst` is kept. The value is
the new content of `dst`. -/
def copy (dst src : List Byte) : List Byte :=
  let n := min dst.length src.length
  src.take n ++ dst.drop n

/-- The builtin `copy` with an array as destination (`copy(hash[:], src)`). -/
def copyInto {n : Nat} (dst : FixedBytes n) (src : List Byte) : FixedBytes n :=
  ⟨copy dst.val src, by
    have h := dst.property
    simp only [copy, List.length_append, List.length_take, List.length_drop]
    omega⟩

/-! ## codec.go -/

/-- Modelled from the spec: the constant `DataLen` is declared outside
codec.go; the spec fixes the data field at 32 bytes and the test compares
a `[DataLen]byte` with the `[32]byte` a block returns. -/
def DataLen : Nat := 32

/-- Modelled from the spec: the constant `SigLen` is declared outside
codec.go; the spec fixes the signature field at 64 bytes and the test passes a
`[96]byte` where a `[DataLen + SigLen]byte` is expected. -/
def SigLen : Nat := 64

/-- The function `DecodeMempool` of codec.go. -/
def DecodeMempool (data : FixedBytes (DataLen + SigLen)) :
    FixedBytes 32 × FixedBytes 64 :=
  let hash : FixedBytes 32 := zeroArray 32
  let sig : FixedBytes 64 := zeroArray 64
  let hash := copyInto hash (sliceOf data.val 0 DataLen)
  let sig := copyInto sig (sliceOf data.val DataLen (DataLen + SigLen))
  (hash, sig)

/-- Modelled from the spec: `encode(hash[32], sig[64]) -> bytes[96]`, the raw
concatenation of the two fixed-size fields. The repository has no encoder. -/
def encodeRecord (hash : FixedBytes 32) (sig : FixedBytes 64) :
    FixedBytes (DataLen + SigLen) :=
  ⟨hash.val ++ sig.val, by
    simp only [List.length_append, hash.property, sig.property, DataLen, SigLen]⟩

/-- The line `copy(testArray[:], testSlice)` of vm_test.go, `testArray` being the
zero-valued `[96]byte` package variable: the slice is copied over it. -/
def toRecordArray (s : List Byte) : FixedBytes (DataLen + SigLen) :=
  copyInto (zeroArray (DataLen + SigLen)) s

/-! ## signature.go

The functions of go-ethereum (`crypto`, `crypto/secp256k1`) and of the Go
standard library (`crypto/elliptic`) that signature.go calls are the fields of
`Primitives`; `SignData`, `Ecrecover` and `ValidateSig` are written over an
arbitrary such record. -/

/-- A Go `error` value that is not nil. -/
abbrev Error := String

/-- A `*big.Int`: nil or an integer. -/
abbrev BigInt := Option Int

/-- An `elliptic.Curve` value; `crypto.S256()` is `S256`. -/
inductive EllipticCurve where
  | S256
  | P256
  deriving DecidableEq

/-- The struct `ecdsa.PublicKey`. -/
structure PublicKey where
  Curve : EllipticCurve
  X : BigInt
  Y : BigInt
  deriving DecidableEq

/-- The struct `ecdsa.PrivateKey`; a `*ecdsa.PrivateKey` argument is taken to be
non-nil. -/
structure PrivateKey where
  PublicKey : PublicKey
  D : BigInt
  deriving DecidableEq

/-- The type `common.Address`, a `[20]byte`. -/
abbrev Address := FixedBytes 20

/-- The library functions signature.go calls, with their Go signatures. Each is
taken to return on the values signature.go hands it. -/
structure Primitives where
  /-- `crypto.Sign(digestHash []byte, prv *ecdsa.PrivateKey) ([]byte, error)` -/
  Sign : List Byte → PrivateKey → List Byte × Option Error
  /-- `secp256k1.RecoverPubkey(msg, sig []byte) ([]byte, error)` -/
  RecoverPubkey : List Byte → List Byte → List Byte × Option Error
  /-- `elliptic.Unmarshal(curve, data []byte) (x, y *big.Int)` -/
  Unmarshal : EllipticCurve → List Byte → BigInt × BigInt
  /-- `crypto.PubkeyToAddress(p ecdsa.PublicKey) common.Address` -/
  PubkeyToAddress : PublicKey → Address
  /-- `crypto.CompressPubkey(pubkey *ecdsa.PublicKey) []byte` -/
  CompressPubkey : PublicKey → List Byte
  /-- `secp256k1.VerifySignature(pubkey, msg, signature []byte) bool` -/
  VerifySignature : List Byte → List Byte → List Byte → Bool

/-- The Go slice expression `a[:]`. -/
def sliceAll (a : List Byte) : List Byte :=
  sliceOf a 0 a.length

/-- The function `SignData` of signature.go. -/
def SignData (env : Primitives) (data : List Byte) (privKey : PrivateKey) :
    List Byte × Option Error :=
  match env.Sign (sliceAll data) privKey with
  | (_, some err) => ([], some err)
  | (sig, none) => (sig, none)

/-- The function `Ecrecover` of signature.go. -/
def Ecrecover (env : Primitives) (hash sig : List Byte) : List Byte × Option Error :=
  env.RecoverPubkey hash sig

/-- The public key `ValidateSig` rebuilds from the recovered bytes `ec`:
`x, y := elliptic.Unmarshal(crypto.S256(), ec)` and
`pub := &ecdsa.PublicKey{Curve: crypto.S256(), X: x, Y: y}`. -/
def recoveredPub (env : Primitives) (ec : List Byte) : PublicKey :=
  let xy := env.Unmarshal EllipticCurve.S256 ec
  { Curve := EllipticCurve.S256, X := xy.1, Y := xy.2 }

/-- The function `ValidateSig` of signature.go. -/
def ValidateSig (env : Primitives) (data sig : List Byte) (sender : Address) :
    Bool × Option Error :=
  match Ecrecover env data sig with
  | (_, some err) => (false, some err)
  | (ec, none) =>
    let pub := recoveredPub env ec
    let recoveredProposer := env.PubkeyToAddress pub
    if recoveredProposer ≠ sender then
      (false, none)
    else
      let compressed := env.CompressPubkey pub
      let result := env.VerifySignature compressed (sliceAll data) sig
      (result, none)

/-! ### Contracts of the library functions

What go-ethereum documents about the functions above, as far as the claims
need it. -/

/-- The order of the secp256k1 group. -/
def secp256k1N : Int :=
  0xFFFFFFFFFFFFFFFFFFFFFFFFFFFFFFFEBAAEDCE6AF48A03BBFD25E8CD0364141

/-- A private key `crypto.Sign` accepts: on the secp256k1 curve, with a secret
scalar in `[1, N-1]`. -/
def WellFormedKey (k : PrivateKey) : Prop :=
  k.PublicKey.Curve = EllipticCurve.S256 ∧
    match k.D with
    | some d => 0 < d ∧ d < secp256k1N
    | none => False

instance (k : PrivateKey) : Decidable (WellFormedKey k) := by
  unfold WellFormedKey
  cases k.D <;> exact inferInstance

/-- The contract of `crypto.Sign`: the digest must be 32 bytes; on a 32-byte
digest and a well-formed key it succeeds; "the produced signature is in the
[R || S || V] format where V is 0 or 1", 65 bytes. -/
structure SignContract (env : Primitives) : Prop where
  digest_len : ∀ d k, d.length ≠ 32 → (env.Sign d k).2 ≠ none
  succeeds : ∀ d k, d.length = 32 → WellFormedKey k → (env.Sign d k).2 = none
  sig_len : ∀ d k, (env.Sign d k).2 = none → (env.Sign d k).1.length = 65

/-- The contracts of `secp256k1.RecoverPubkey` and `secp256k1.VerifySignature`:
recovery accepts only 65-byte `[R || S || V]` signatures, and verification
returns false unless the signature is 64 bytes (`[R || S]`, "the signature
should have the 64 byte [R || S] format"). -/
structure RecoverVerifyContract (env : Primitives) : Prop where
  recover_len : ∀ m sig, (env.RecoverPubkey m sig).2 = none → sig.length = 65
  verify_len : ∀ pk m sig, env.VerifySignature pk m sig = true → sig.length = 64

/-! ### A small instance of the primitives

`toyEnv` is an executable stand-in with the shapes of the real functions: 32-byte
digests, 65-byte `[R || S || V]` signatures out of `Sign` and into
`RecoverPubkey`, 65-byte uncompressed and 33-byte compressed public keys, 64-byte
`[R || S]` signatures into `VerifySignature`. It is not secure and is not meant
to be: `R` is the digest and `S` repeats the low byte of the secret scalar. It
shows that the contracts can be met and gives concrete inputs to evaluate. -/

/-- The low byte of a big integer (zero for nil). -/
def lowByte (x : BigInt) : Byte :=
  match x with
  | some v => Fin.ofNat (v.toNat % 256)
  | none => 0

/-- A 32-byte big-endian field holding one byte. -/
def field32 (b : Byte) : List Byte :=
  List.replicate 31 0 ++ [b]

def toySign (d : List Byte) (k : PrivateKey) : List Byte × Option Error :=
  if d.length ≠ 32 then ([], some "hash is required to be exactly 32 bytes")
  else if ¬ WellFormedKey k then ([], some "invalid private key")
  else (d ++ field32 (lowByte k.D) ++ [0], none)

def toyRecoverPubkey (m sig : List Byte) : List Byte × Option Error :=
  if m.length ≠ 32 then ([], some "invalid message length, need 32 bytes")
  else if sig.length ≠ 65 then ([], some "invalid signature length")
  else if 4 ≤ (sig.getD 64 0).val then ([], some "invalid signature recovery id")
  else if sig.take 32 ≠ m ∨ (sig.drop 32).take 31 ≠ List.replicate 31 0 then
    ([], some "recovery failed")
  else (4 :: (field32 (sig.getD 63 0) ++ field32 (sig.getD 63 0)), none)

def toyUnmarshal (_curve : EllipticCurve) (data : List Byte) : BigInt × BigInt :=
  if data.length = 65 ∧ data.getD 0 0 = 4 then
    (some (Int.ofNat (data.getD 32 0).val), some (Int.ofNat (data.getD 64 0).val))
  else (none, none)

def toyPubkeyToAddress (p : PublicKey) : Address :=
  ⟨List.replicate 19 0 ++ [lowByte p.X], by simp⟩

def toyCompressPubkey (p : PublicKey) : List Byte :=
  2 :: field32 (lowByte p.X)

def toyVerifySignature (pubkey msg signature : List Byte) : Bool :=
  decide (msg.length = 32 ∧ signature.length = 64 ∧ pubkey.length = 33 ∧
    signature.take 32 = msg ∧ signature.drop 32 = field32 (pubkey.getD 32 0))

def toyEnv : Primitives where
  Sign := toySign
  RecoverPubkey := toyRecoverPubkey
  Unmarshal := toyUnmarshal
  PubkeyToAddress := toyPubkeyToAddress
  CompressPubkey := toyCompressPubkey
  VerifySignature := toyVerifySignature

/-- A well-formed private key: secret scalar 7. -/
def toyKey : PrivateKey :=
  { PublicKey := { Curve := EllipticCurve.S256, X := some 7, Y := some 7 }, D := some 7 }

/-- The address of `toyKey`. -/
def toyAddr : Address :=
  toyPubkeyToAddress toyKey.PublicKey

/-- A 32-byte digest. -/
def toyDigest : List Byte :=
  List.replicate 32 1

/-! ## The block lifecycle

The VM itself (its blocks, chain store and mempool) lies outside codec.go and
signature.go; vm_test.go drives it. The definitions of this section follow the
written design of the VM. The signature check of `verify` is `ValidateSig`
above, and the record split of `proposeBlock` is `DecodeMempool` above. -/

/-- A block identifier, `ids.ID`, a `[32]byte`. -/
abbrev ID := FixedBytes 32

/-- Modelled from the spec: the distinguished empty identifier, the parent of
the genesis block (`ids.Empty` in vm_test.go). -/
def emptyID : ID := zeroArray 32

/-- Modelled from the spec: the status of a block, one of Processing, Accepted,
Rejected. -/
inductive Status where
  | Processing
  | Accepted
  | Rejected
  deriving DecidableEq

/-- Modelled from the spec: the Block of the data model, with its identifier,
linkage, payload, signature, registrant and status. -/
structure Block where
  id : ID
  parentID : ID
  height : Nat
  timestamp : Nat
  data : FixedBytes 32
  signature : FixedBytes 64
  registrant : Address
  status : Status
  deriving DecidableEq

deriving instance DecidableEq for Except

/-- Modelled from the spec: the error taxonomy of the lifecycle operations. -/
inductive VMError where
  | notFound
  | parentNotFound
  | parentNotAccepted
  | badSignature
  | heightMismatch
  | consistency
  | invalidUse
  deriving DecidableEq

/-- Modelled from the spec: the Chain Store, a mapping from identifier to block
(newest entry first), the last-accepted pointer and the initialization flag. -/
structure ChainStore where
  blocks : List (ID × Block)
  lastAccepted : ID
  initialized : Bool
  deriving DecidableEq

/-- Modelled from the spec: the VM, holding the Chain Store, the single mempool
entry, the current preference, the blocks tracked in memory while not accepted,
and the single-slot notification channel (true when the slot is taken). -/
structure VM where
  state : ChainStore
  mempool : Option (FixedBytes 32 × FixedBytes 64)
  preferred : ID
  tracked : List (ID × Block)
  toEngine : Bool
  deriving DecidableEq

/-- Modelled from the spec: what the VM is built over, the signature primitives and the function that
derives a block's identifier from its content ("hash of the serialized
block"). -/
structure Config where
  env : Primitives
  blockID : ID → Nat → Nat → FixedBytes 32 → FixedBytes 64 → Address → ID

/-- Modelled from the spec: a new block in Processing status, its identifier
derived from its content. -/
def newBlock (cfg : Config) (parentID : ID) (height timestamp : Nat)
    (data : FixedBytes 32) (signature : FixedBytes 64) (registrant : Address) : Block :=
  { id := cfg.blockID parentID height timestamp data signature registrant
    parentID := parentID
    height := height
    timestamp := timestamp
    data := data
    signature := signature
    registrant := registrant
    status := Status.Processing }

/-- Modelled from the spec: `initialize` (the method `Initialize`) on a store whose `initialized` flag is
unset constructs and accepts a genesis block (parent the empty identifier,
height 0) carrying the genesis fields, and sets the flag; on an initialized
store it loads `lastAccepted`. The spec leaves the first preference open; it is
the last accepted block here, and vm_test.go sets it before building. -/
def Initialize (cfg : Config) (store : ChainStore) (data : FixedBytes 32)
    (signature : FixedBytes 64) (registrant : Address) (now : Nat) : VM :=
  if store.initialized then
    { state := store, mempool := none, preferred := store.lastAccepted, tracked := [],
      toEngine := false }
  else
    let g : Block :=
      { newBlock cfg emptyID 0 now data signature registrant with status := Status.Accepted }
    { state := { blocks := (g.id, g) :: store.blocks, lastAccepted := g.id, initialized := true }
      mempool := none, preferred := g.id, tracked := [], toEngine := false }

/-- Modelled from the spec: `getBlock(id)` resolves from the Chain Store, then
from the blocks tracked in memory, and fails with NotFoundError otherwise. -/
def getBlock (vm : VM) (id : ID) : Except VMError Block :=
  match vm.state.blocks.lookup id with
  | some b => Except.ok b
  | none =>
    match vm.tracked.lookup id with
    | some b => Except.ok b
    | none => Except.error VMError.notFound

/-- Modelled from the spec: `lastAccepted()` returns the Chain Store's pointer. -/
def lastAccepted (vm : VM) : ID :=
  vm.state.lastAccepted

/-- Modelled from the spec: `setPreference(id)` records the block the next
`buildBlock()` extends. -/
def setPreference (vm : VM) (id : ID) : VM :=
  { vm with preferred := id }

/-- Modelled from the spec: `propose(hash, sig)` stores the entry, replacing any
unconsumed one, and schedules one notification if the mempool was empty. -/
def propose (vm : VM) (hash : FixedBytes 32) (sig : FixedBytes 64) : VM :=
  { vm with
    mempool := some (hash, sig)
    toEngine := if vm.mempool.isNone then true else vm.toEngine }

/-- Modelled from the spec: proposing a 96-byte candidate record
(`vm.proposeBlock(testArray)` in vm_test.go): the record is split by
`DecodeMempool` and the two fields become the mempool entry. -/
def proposeBlock (vm : VM) (record : FixedBytes (DataLen + SigLen)) : VM :=
  propose vm (DecodeMempool record).1 (DecodeMempool record).2

/-- Modelled from the spec: `take()` removes and returns the mempool entry. -/
def take (vm : VM) : Option (FixedBytes 32 × FixedBytes 64) × VM :=
  (vm.mempool, { vm with mempool := none })

/-- Modelled from the spec: the block `buildBlock()` constructs on top of the
preferred block `pref`: the mempool entry, or all-zero fields without one;
parent the current preference; height one more than the preferred block's. The
spec does not say where the registrant of a built block comes from: it is an
argument. -/
def builtBlock (cfg : Config) (vm : VM) (pref : Block) (now : Nat) (registrant : Address) :
    Block :=
  let entry := (take vm).1.getD (zeroArray 32, zeroArray 64)
  newBlock cfg vm.preferred (pref.height + 1) now entry.1 entry.2 registrant

/-- Modelled from the spec: the VM after `buildBlock()`: the mempool entry is
consumed and the new block is tracked in memory; the Chain Store is untouched. -/
def builtVM (cfg : Config) (vm : VM) (pref : Block) (now : Nat) (registrant : Address) : VM :=
  let b := builtBlock cfg vm pref now registrant
  { (take vm).2 with tracked := (b.id, b) :: vm.tracked }

/-- Modelled from the spec: `buildBlock()`; it fails when the preference is not
a known block. -/
def buildBlock (cfg : Config) (vm : VM) (now : Nat) (registrant : Address) :
    Except VMError (Block × VM) :=
  match getBlock vm vm.preferred with
  | Except.error e => Except.error e
  | Except.ok pref =>
    Except.ok (builtBlock cfg vm pref now registrant, builtVM cfg vm pref now registrant)

/-- Modelled from the spec: check (b) of `verify()`: if the data field is
non-zero, `validate(data, signature, registrant)` holds. -/
def signatureOK (cfg : Config) (b : Block) : Bool :=
  decide (b.data = zeroArray 32) ||
    decide (ValidateSig cfg.env b.data.val b.signature.val b.registrant = (true, none))

/-- Modelled from the spec: `verify()`: (a) the parent is an Accepted block of
the Chain Store, or the empty identifier for the genesis block; (b) the
signature check; (c) the height is the parent's plus one. It changes nothing. -/
def verify (cfg : Config) (vm : VM) (b : Block) : Except VMError Unit :=
  if b.parentID = emptyID then
    if ¬ signatureOK cfg b then Except.error VMError.badSignature
    else if b.height ≠ 0 then Except.error VMError.heightMismatch
    else Except.ok ()
  else
    match vm.state.blocks.lookup b.parentID with
    | none =>
      match vm.tracked.lookup b.parentID with
      | some _ => Except.error VMError.parentNotAccepted
      | none => Except.error VMError.parentNotFound
    | some parent =>
      if parent.status ≠ Status.Accepted then Except.error VMError.parentNotAccepted
      else if ¬ signatureOK cfg b then Except.error VMError.badSignature
      else if b.height ≠ parent.height + 1 then Except.error VMError.heightMismatch
      else Except.ok ()

/-- Modelled from the spec: the status of a block is mutable and set once; its
current value is the one recorded in the Chain Store, else
the one tracked in memory, else the block's own. -/
def statusOf (vm : VM) (b : Block) : Status :=
  match vm.state.blocks.lookup b.id with
  | some sb => sb.status
  | none =>
    match vm.tracked.lookup b.id with
    | some tb => tb.status
    | none => b.status

/-- Modelled from the spec: the VM after a successful `accept()`: the block is
written into the Chain Store with status Accepted and `lastAccepted` points to
it. -/
def acceptedVM (vm : VM) (b : Block) : VM :=
  { vm with
    state :=
      { blocks := (b.id, { b with status := Status.Accepted }) :: vm.state.blocks
        lastAccepted := b.id
        initialized := vm.state.initialized } }

/-- Modelled from the spec: `accept()` requires the block to be in Processing
(a second call is invalid use) and its parent to be Accepted already, or the
block to be genesis; a missing or unaccepted parent is a ConsistencyError. -/
def accept (vm : VM) (b : Block) : Except VMError VM :=
  if statusOf vm b ≠ Status.Processing then Except.error VMError.invalidUse
  else if b.parentID = emptyID then Except.ok (acceptedVM vm b)
  else
    match vm.state.blocks.lookup b.parentID with
    | none => Except.error VMError.consistency
    | some parent =>
      if parent.status ≠ Status.Accepted then Except.error VMError.consistency
      else Except.ok (acceptedVM vm b)

/-! ### The run of `TestHappyPath` -/

/-- The bytes of the hexadecimal string `testDataSig` of vm_test.go. -/
def testDataSig : List Byte :=
  [
    0x6e, 0x8b, 0x0d, 0x92, 0x51, 0x6e, 0xe4, 0x28, 0x91, 0x45, 0xe3, 0xb7,
    0x8c, 0xea, 0x58, 0xda, 0xac, 0x17, 0x7b, 0x1c, 0x61, 0x8b, 0xee, 0xed,
    0xbc, 0x6c, 0xda, 0xbd, 0x38, 0x8a, 0x6e, 0x55, 0x7f, 0x44, 0x77, 0x12,
    0x38, 0x1a, 0x49, 0x55, 0x48, 0x75, 0xdf, 0x35, 0x3b, 0x16, 0x08, 0x58,
    0x90, 0x5e, 0x44, 0xc3, 0x7e, 0x75, 0xda, 0xd1, 0x68, 0xe1, 0xa4, 0xab,
    0xf3, 0x2d, 0xbf, 0x68, 0x69, 0xa2, 0xea, 0xea, 0xf0, 0x42, 0xf0, 0x01,
    0xc3, 0x6c, 0x43, 0xe0, 0x19, 0x96, 0x48, 0x6b, 0x91, 0xed, 0x92, 0x9d,
    0xea, 0x0d, 0x2c, 0x68, 0xd8, 0xe1, 0xfc, 0x9d, 0x25, 0x59, 0xfa, 0xbf
  ]

/-- The array `testArray` of vm_test.go after `copy(testArray[:], testSlice)`. -/
def testArray : FixedBytes (DataLen + SigLen) :=
  toRecordArray testDataSig

/-- An executable stand-in for the identifier of a block: the low byte of the
height plus one, then 16 bytes of the data and 15 bytes of the parent. -/
def toyBlockID (parentID : ID) (height _timestamp : Nat) (data : FixedBytes 32)
    (_signature : FixedBytes 64) (_registrant : Address) : ID :=
  copyInto (zeroArray 32)
    (Fin.ofNat ((height + 1) % 256) :: (data.val.take 16 ++ parentID.val.take 15))

/-- The configuration of the runs below. -/
def toyConfig : Config :=
  { env := toyEnv, blockID := toyBlockID }

/-- The Chain Store before `Initialize`: empty, not initialized. -/
def emptyStore : ChainStore :=
  { blocks := [], lastAccepted := emptyID, initialized := false }

/-- The VM of `newTestVM` with a zeroed genesis, after
`vm.SetPreference(ctx, genesisBlock.ID())`. -/
def testVM : VM :=
  let vm := Initialize toyConfig emptyStore (zeroArray 32) (zeroArray 64) (zeroArray 20) 0
  setPreference vm (lastAccepted vm)

/-- The genesis block of `testVM`. -/
def testGenesis : Block :=
  { newBlock toyConfig emptyID 0 0 (zeroArray 32) (zeroArray 64) (zeroArray 20) with
    status := Status.Accepted }

/-- The value `[DataLen]byte{0, 0, 0, 0, 1}` that `TestHappyPath` compares with
the data of the first accepted block. -/
def testExpectedData : FixedBytes 32 :=
  copyInto (zeroArray 32) [0, 0, 0, 0, 1]

/-! ## Codec lemmas -/

theorem copy_zero_of_length {n : Nat} (src : List Byte) (h : src.length = n) :
    copy (zeroArray n).val src = src := by
  simp [copy, zeroArray, h]

theorem DecodeMempool_fst (b : FixedBytes (DataLen + SigLen)) :
    (DecodeMempool b).1.val = b.val.take 32 := by
  have hb : b.val.length = 96 := b.property
  show copy (zeroArray 32).val (sliceOf b.val 0 DataLen) = _
  rw [copy_zero_of_length]
  · simp [sliceOf, DataLen]
  · simp [sliceOf, DataLen, hb]

theorem DecodeMempool_snd (b : FixedBytes (DataLen + SigLen)) :
    (DecodeMempool b).2.val = (b.val.drop 32).take 64 := by
  have hb : b.val.length = 96 := b.property
  show copy (zeroArray 64).val (sliceOf b.val DataLen (DataLen + SigLen)) = _
  have h96 : b.val.take 96 = b.val := List.take_of_length_le (by omega)
  have h64 : (b.val.drop 32).take 64 = b.val.drop 32 :=
    List.take_of_length_le (by simp [hb])
  rw [copy_zero_of_length]
  · simp [sliceOf, DataLen, SigLen, h96, h64]
  · simp [sliceOf, DataLen, SigLen, hb]

/-- C1. For every 96-byte array `b`, `DecodeMempool b` is the pair of bytes
0..31 of `b` and bytes 32..95 of `b`, and concatenating the two fields gives
`b` back. -/
theorem DecodeMempool_splits (b : FixedBytes (DataLen + SigLen)) :
    (DecodeMempool b).1.val = b.val.take 32 ∧
    (DecodeMempool b).2.val = (b.val.drop 32).take 64 ∧
    (∀ i : Fin 32, (DecodeMempool b).1.val[i.val]? = b.val[i.val]?) ∧
    (∀ j : Fin 64, (DecodeMempool b).2.val[j.val]? = b.val[32 + j.val]?) ∧
    (DecodeMempool b).1.val ++ (DecodeMempool b).2.val = b.val ∧
    encodeRecord (DecodeMempool b).1 (DecodeMempool b).2 = b := by
  have hb : b.val.length = 96 := b.property
  have h64 : (b.val.drop 32).take 64 = b.val.drop 32 :=
    List.take_of_length_le (by simp [hb])
  have hcat : (DecodeMempool b).1.val ++ (DecodeMempool b).2.val = b.val := by
    rw [DecodeMempool_fst, DecodeMempool_snd, h64, List.take_append_drop]
  refine ⟨DecodeMempool_fst b, DecodeMempool_snd b, ?_, ?_, hcat, Subtype.ext hcat⟩
  · intro i
    rw [DecodeMempool_fst, List.getElem?_take]
    simp [i.isLt]
  · intro j
    rw [DecodeMempool_snd, h64, List.getElem?_drop]

/-! ## Lemmas on signature.go -/

theorem sliceAll_eq (a : List Byte) : sliceAll a = a := by
  simp [sliceAll, sliceOf]

theorem ValidateSig_of_recover_error (env : Primitives) (data sig ec : List Byte)
    (sender : Address) (err : Error) (hrec : Ecrecover env data sig = (ec, some err)) :
    ValidateSig env data sig sender = (false, some err) := by
  simp only [ValidateSig, hrec]

theorem ValidateSig_of_mismatch (env : Primitives) (data sig ec : List Byte)
    (sender : Address) (hrec : Ecrecover env data sig = (ec, none))
    (hne : env.PubkeyToAddress (recoveredPub env ec) ≠ sender) :
    ValidateSig env data sig sender = (false, none) := by
  simp only [ValidateSig, hrec]
  simp [hne]

theorem ValidateSig_of_match (env : Primitives) (data sig ec : List Byte)
    (sender : Address) (hrec : Ecrecover env data sig = (ec, none))
    (heq : env.PubkeyToAddress (recoveredPub env ec) = sender) :
    ValidateSig env data sig sender =
      (env.VerifySignature (env.CompressPubkey (recoveredPub env ec)) data sig, none) := by
  simp only [ValidateSig, hrec, sliceAll_eq]
  simp [heq]

/-- Under the contracts of `RecoverPubkey` and `VerifySignature`, the boolean
`ValidateSig` returns is false on every input. -/
theorem ValidateSig_fst_false (env : Primitives) (hc : RecoverVerifyContract env)
    (data sig : List Byte) (sender : Address) :
    (ValidateSig env data sig sender).1 = false := by
  rcases hrec : Ecrecover env data sig with ⟨ec, _ | err⟩
  · by_cases heq : env.PubkeyToAddress (recoveredPub env ec) = sender
    · rw [ValidateSig_of_match env data sig ec sender hrec heq]
      have h65 : sig.length = 65 := by
        apply hc.recover_len data sig
        show (Ecrecover env data sig).2 = none
        rw [hrec]
      cases hv : env.VerifySignature (env.CompressPubkey (recoveredPub env ec)) data sig
      · rfl
      · have h64 := hc.verify_len _ _ _ hv
        omega
    · rw [ValidateSig_of_mismatch env data sig ec sender hrec heq]
  · rw [ValidateSig_of_recover_error env data sig ec sender err hrec]

theorem toyEnv_recoverVerifyContract : RecoverVerifyContract toyEnv where
  recover_len := by
    intro m sig h
    by_contra hlen
    simp [toyEnv, toyRecoverPubkey, hlen] at h
    split at h <;> simp at h
  verify_len := by
    intro pk m sig h
    simp only [toyEnv, toyVerifySignature, decide_eq_true_eq] at h
    exact h.2.1

theorem toyEnv_signContract : SignContract toyEnv where
  digest_len := by
    intro d k h
    simp [toyEnv, toySign, h]
  succeeds := by
    intro d k h hk
    simp [toyEnv, toySign, h, hk]
  sig_len := by
    intro d k h
    by_cases hd : d.length = 32
    · by_cases hk : WellFormedKey k
      · simp [toyEnv, toySign, hd, hk, field32]
      · simp [toyEnv, toySign, hd, hk] at h
    · simp [toyEnv, toySign, hd] at h

/-! ## The codec claims -/

/-- C2. For every 32-byte hash `h` and 64-byte signature `s`, `DecodeMempool`
applied to the 96-byte concatenation `h ++ s` returns exactly `(h, s)`; and
`DecodeMempool` is injective on 96-byte arrays. -/
theorem DecodeMempool_encodeRecord :
    (∀ (h : FixedBytes 32) (s : FixedBytes 64),
      (encodeRecord h s).val = h.val ++ s.val ∧ DecodeMempool (encodeRecord h s) = (h, s)) ∧
    Function.Injective DecodeMempool := by
  constructor
  · intro h s
    refine ⟨rfl, ?_⟩
    have hh : h.val.length = 32 := h.property
    have hs : s.val.length = 64 := s.property
    apply Prod.ext
    · apply Subtype.ext
      rw [DecodeMempool_fst]
      show (h.val ++ s.val).take 32 = h.val
      rw [List.take_append_of_le_length (by omega), List.take_of_length_le (by omega)]
    · apply Subtype.ext
      rw [DecodeMempool_snd]
      show ((h.val ++ s.val).drop 32).take 64 = s.val
      rw [List.drop_append_of_le_length (by omega), List.drop_of_length_le (by omega),
        List.nil_append, List.take_of_length_le (by omega)]
  · intro b b' hbb
    have h1 : b.val.take 32 = b'.val.take 32 := by
      rw [← DecodeMempool_fst, ← DecodeMempool_fst, hbb]
    have h2 : (b.val.drop 32).take 64 = (b'.val.drop 32).take 64 := by
      rw [← DecodeMempool_snd, ← DecodeMempool_snd, hbb]
    have hb : b.val.length = 96 := b.property
    have hb' : b'.val.length = 96 := b'.property
    rw [List.take_of_length_le (by simp [hb]), List.take_of_length_le (by simp [hb'])] at h2
    apply Subtype.ext
    rw [← List.take_append_drop 32 b.val, ← List.take_append_drop 32 b'.val, h1, h2]

/-! ## The signature claims -/

/-- C4. If `Ecrecover(data, sig)` succeeds and the address derived from the
recovered public key differs from `sender`, then `ValidateSig` returns
`(false, nil)`, whatever `VerifySignature` would answer: it is not consulted. -/
theorem ValidateSig_signer_mismatch (env : Primitives) (data sig ec : List Byte)
    (sender : Address) (hrec : Ecrecover env data sig = (ec, none))
    (hne : env.PubkeyToAddress (recoveredPub env ec) ≠ sender) :
    ValidateSig env data sig sender = (false, none) ∧
    ∀ v : List Byte → List Byte → List Byte → Bool,
      ValidateSig { env with VerifySignature := v } data sig sender = (false, none) := by
  refine ⟨ValidateSig_of_mismatch env data sig ec sender hrec hne, ?_⟩
  intro v
  exact ValidateSig_of_mismatch { env with VerifySignature := v } data sig ec sender hrec hne

/-- C5. `ValidateSig` returns a non-nil error exactly when `Ecrecover` does;
then the boolean is false and the error is the one `Ecrecover` returned. When
recovery succeeds no error is returned, whether or not the signer matches. -/
theorem ValidateSig_error_iff (env : Primitives) (data sig : List Byte) (sender : Address) :
    ((ValidateSig env data sig sender).2 ≠ none ↔ (Ecrecover env data sig).2 ≠ none) ∧
    (∀ err, (Ecrecover env data sig).2 = some err →
      ValidateSig env data sig sender = (false, some err)) ∧
    ((Ecrecover env data sig).2 = none → (ValidateSig env data sig sender).2 = none) := by
  rcases hrec : Ecrecover env data sig with ⟨ec, _ | err⟩
  · have hnone : (ValidateSig env data sig sender).2 = none := by
      by_cases heq : env.PubkeyToAddress (recoveredPub env ec) = sender
      · rw [ValidateSig_of_match env data sig ec sender hrec heq]
      · rw [ValidateSig_of_mismatch env data sig ec sender hrec heq]
    refine ⟨?_, ?_, fun _ => hnone⟩
    · simp [hnone]
    · intro err h
      cases h
  · have herr := ValidateSig_of_recover_error env data sig ec sender err hrec
    refine ⟨?_, ?_, ?_⟩
    · simp [herr]
    · intro err' h
      cases h
      exact herr
    · intro h
      cases h

/-- C6. When `Ecrecover(data, sig)` succeeds and the derived address equals
`sender`, `ValidateSig` returns `(r, nil)` with `r` the result of
`VerifySignature` on the compressed recovered key, `data` and `sig`; hence
`ValidateSig` returns true exactly when recovery succeeds, the derived address
equals `sender`, and that check passes. -/
theorem ValidateSig_signer_match (env : Primitives) (data sig : List Byte) (sender : Address) :
    (∀ ec, Ecrecover env data sig = (ec, none) →
      env.PubkeyToAddress (recoveredPub env ec) = sender →
      ValidateSig env data sig sender =
        (env.VerifySignature (env.CompressPubkey (recoveredPub env ec)) data sig, none)) ∧
    ((ValidateSig env data sig sender).1 = true ↔
      ∃ ec, Ecrecover env data sig = (ec, none) ∧
        env.PubkeyToAddress (recoveredPub env ec) = sender ∧
        env.VerifySignature (env.CompressPubkey (recoveredPub env ec)) data sig = true) := by
  refine ⟨fun ec hrec heq => ValidateSig_of_match env data sig ec sender hrec heq, ?_⟩
  rcases hrec : Ecrecover env data sig with ⟨ec, _ | err⟩
  · by_cases heq : env.PubkeyToAddress (recoveredPub env ec) = sender
    · rw [ValidateSig_of_match env data sig ec sender hrec heq]
      constructor
      · intro h
        exact ⟨ec, rfl, heq, h⟩
      · rintro ⟨ec', h', -, hv⟩
        cases h'
        exact hv
    · rw [ValidateSig_of_mismatch env data sig ec sender hrec heq]
      constructor
      · intro h
        cases h
      · rintro ⟨ec', h', heq', -⟩
        cases h'
        exact absurd heq' heq
  · rw [ValidateSig_of_recover_error env data sig ec sender err hrec]
    constructor
    · intro h
      cases h
    · rintro ⟨ec', h', -, -⟩
      cases h'

/-- C4 at a concrete input: the signature `toyKey` makes over `toyDigest` is
recovered, the recovered address is not the zero address, and validation
against the zero address gives `(false, nil)`. -/
theorem ValidateSig_signer_mismatch_witness :
    Ecrecover toyEnv toyDigest (toySign toyDigest toyKey).1 =
      (4 :: (field32 7 ++ field32 7), none) ∧
    toyEnv.PubkeyToAddress (recoveredPub toyEnv (4 :: (field32 7 ++ field32 7))) ≠
      zeroArray 20 ∧
    ValidateSig toyEnv toyDigest (toySign toyDigest toyKey).1 (zeroArray 20) = (false, none) :=
  ⟨by decide, by decide,
    (ValidateSig_signer_mismatch toyEnv toyDigest (toySign toyDigest toyKey).1
      (4 :: (field32 7 ++ field32 7)) (zeroArray 20) (by decide) (by decide)).1⟩

/-- C6 at a concrete input: the signature `toyKey` makes over `toyDigest` is
recovered and the recovered address is the signer's, so the result of
`ValidateSig` is the result of `VerifySignature` on that same signature. -/
theorem ValidateSig_signer_match_witness :
    Ecrecover toyEnv toyDigest (toySign toyDigest toyKey).1 =
      (4 :: (field32 7 ++ field32 7), none) ∧
    toyEnv.PubkeyToAddress (recoveredPub toyEnv (4 :: (field32 7 ++ field32 7))) = toyAddr ∧
    ValidateSig toyEnv toyDigest (toySign toyDigest toyKey).1 toyAddr =
      (toyEnv.VerifySignature
        (toyEnv.CompressPubkey (recoveredPub toyEnv (4 :: (field32 7 ++ field32 7))))
        toyDigest (toySign toyDigest toyKey).1, none) :=
  ⟨by decide, by decide,
    (ValidateSig_signer_match toyEnv toyDigest (toySign toyDigest toyKey).1 toyAddr).1
      (4 :: (field32 7 ++ field32 7)) (by decide) (by decide)⟩

/-- C7, as stated, fails: with a signing primitive that meets the contract of
`crypto.Sign`, a 32-byte digest and a well-formed key, `SignData` succeeds and
the signature it returns has 65 bytes, not 64. -/
theorem SignData_returns_65_bytes :
    SignContract toyEnv ∧ toyDigest.length = 32 ∧ WellFormedKey toyKey ∧
    (SignData toyEnv toyDigest toyKey).2 = none ∧
    (SignData toyEnv toyDigest toyKey).1 = toyDigest ++ field32 7 ++ [0] ∧
    (SignData toyEnv toyDigest toyKey).1.length = 65 ∧
    (SignData toyEnv toyDigest toyKey).1.length ≠ 64 :=
  ⟨toyEnv_signContract, by decide, by decide, by decide, by decide, by decide, by decide⟩

/-- C7, amended. `SignData` returns `(nil, err)` exactly when the signing
primitive returns the error `err`, and otherwise returns the primitive's
signature unchanged; so, under the contract of `crypto.Sign`, for every 32-byte
data and every well-formed private key it succeeds and returns a signature of
exactly 65 bytes (`[R || S || V]`). -/
theorem SignData_passes_through (env : Primitives) (hsign : SignContract env)
    (data : List Byte) (privKey : PrivateKey) :
    ((SignData env data privKey).2 ≠ none ↔ (env.Sign data privKey).2 ≠ none) ∧
    (∀ err, (env.Sign data privKey).2 = some err →
      SignData env data privKey = ([], some err)) ∧
    ((env.Sign data privKey).2 = none →
      SignData env data privKey = ((env.Sign data privKey).1, none)) ∧
    (data.length = 32 → WellFormedKey privKey →
      (SignData env data privKey).2 = none ∧ (SignData env data privKey).1.length = 65) := by
  have hok : (env.Sign data privKey).2 = none →
      SignData env data privKey = ((env.Sign data privKey).1, none) := by
    intro h
    rcases hs : env.Sign data privKey with ⟨sg, _ | err⟩
    · simp only [SignData, sliceAll_eq, hs]
    · rw [hs] at h
      cases h
  have herr : ∀ err, (env.Sign data privKey).2 = some err →
      SignData env data privKey = ([], some err) := by
    intro err h
    rcases hs : env.Sign data privKey with ⟨sg, _ | err'⟩
    · rw [hs] at h
      cases h
    · rw [hs] at h
      cases h
      simp only [SignData, sliceAll_eq, hs]
  refine ⟨?_, herr, hok, ?_⟩
  · cases hs : (env.Sign data privKey).2 with
    | none => simp [hok hs]
    | some err => simp [herr err hs]
  · intro hlen hk
    have h := hsign.succeeds data privKey hlen hk
    rw [hok h]
    exact ⟨rfl, hsign.sig_len data privKey h⟩

/-- C7 amended, at concrete inputs: `toyKey` over the 32-byte `toyDigest` gives
a 65-byte signature; over a 3-byte input the primitive fails and `SignData`
returns nil and the primitive's error. -/
theorem SignData_passes_through_witness :
    ((SignData toyEnv toyDigest toyKey).2 = none ∧
      (SignData toyEnv toyDigest toyKey).1.length = 65) ∧
    SignData toyEnv [1, 2, 3] toyKey = ([], some "hash is required to be exactly 32 bytes") :=
  ⟨(SignData_passes_through toyEnv toyEnv_signContract toyDigest toyKey).2.2.2
      (by decide) (by decide),
    (SignData_passes_through toyEnv toyEnv_signContract [1, 2, 3] toyKey).2.1
      "hash is required to be exactly 32 bytes" (by decide)⟩

/-- C9 fails on the code. Under the contracts of `RecoverPubkey` and
`VerifySignature`, whenever `ValidateSig` reaches its `VerifySignature` call
(recovery on `sig` succeeded and the derived address matched `sender`), the
signature handed to `VerifySignature` is `sig` itself, which has 65 bytes and so
still carries the recovery byte; the check answers false and `ValidateSig`
returns `(false, nil)`. -/
theorem ValidateSig_verify_gets_recovery_byte (env : Primitives)
    (hc : RecoverVerifyContract env) (data sig ec : List Byte) (sender : Address)
    (hrec : Ecrecover env data sig = (ec, none))
    (heq : env.PubkeyToAddress (recoveredPub env ec) = sender) :
    ValidateSig env data sig sender =
      (env.VerifySignature (env.CompressPubkey (recoveredPub env ec)) (sliceAll data) sig,
        none) ∧
    sig.length = 65 ∧ sig.length ≠ 64 ∧
    env.VerifySignature (env.CompressPubkey (recoveredPub env ec)) (sliceAll data) sig = false ∧
    ValidateSig env data sig sender = (false, none) := by
  have hm := ValidateSig_of_match env data sig ec sender hrec heq
  have h65 : sig.length = 65 := by
    apply hc.recover_len data sig
    show (Ecrecover env data sig).2 = none
    rw [hrec]
  have hf := ValidateSig_fst_false env hc data sig sender
  rw [hm] at hf
  simp only at hf
  rw [sliceAll_eq]
  refine ⟨hm, h65, by omega, hf, ?_⟩
  rw [hm, hf]

/-- C9 at a concrete input: the 65-byte signature of `toyKey` over `toyDigest`,
validated against the signer's own address, reaches `VerifySignature` with its
65 bytes and is turned down, while its first 64 bytes pass the same check. -/
theorem ValidateSig_verify_gets_recovery_byte_witness :
    (toySign toyDigest toyKey).1.length = 65 ∧
    ValidateSig toyEnv toyDigest (toySign toyDigest toyKey).1 toyAddr = (false, none) ∧
    toyEnv.VerifySignature (toyEnv.CompressPubkey toyKey.PublicKey) toyDigest
      ((toySign toyDigest toyKey).1.take 64) = true :=
  ⟨(ValidateSig_verify_gets_recovery_byte toyEnv toyEnv_recoverVerifyContract toyDigest
      (toySign toyDigest toyKey).1 (4 :: (field32 7 ++ field32 7)) toyAddr
      (by decide) (by decide)).2.1,
    (ValidateSig_verify_gets_recovery_byte toyEnv toyEnv_recoverVerifyContract toyDigest
      (toySign toyDigest toyKey).1 (4 :: (field32 7 ++ field32 7)) toyAddr
      (by decide) (by decide)).2.2.2.2,
    by decide⟩

/-- C10 fails on the code. Under the contracts of `RecoverPubkey` and
`VerifySignature`, a signature `SignData` returns never validates: for every
key, data and address, `ValidateSig` on it does not return `(true, nil)`; indeed
`ValidateSig` returns true on no input at all. -/
theorem sign_validate_roundtrip_fails (env : Primitives) (hc : RecoverVerifyContract env) :
    (∀ (data : List Byte) (privKey : PrivateKey) (sender : Address),
      (SignData env data privKey).2 = none →
      ValidateSig env data (SignData env data privKey).1 sender ≠ (true, none)) ∧
    (∀ (data sig : List Byte) (sender : Address),
      (ValidateSig env data sig sender).1 = false) := by
  refine ⟨?_, ValidateSig_fst_false env hc⟩
  intro data privKey sender _ h
  have hf := ValidateSig_fst_false env hc data (SignData env data privKey).1 sender
  rw [h] at hf
  cases hf

/-- C10 at a concrete input: `SignData` with `toyKey` over `toyDigest` succeeds,
and `ValidateSig` on the result, against the address of `toyKey`, returns
`(false, nil)`. -/
theorem sign_validate_roundtrip_fails_witness :
    WellFormedKey toyKey ∧ toyDigest.length = 32 ∧
    (SignData toyEnv toyDigest toyKey).2 = none ∧
    toyEnv.PubkeyToAddress toyKey.PublicKey = toyAddr ∧
    ValidateSig toyEnv toyDigest (SignData toyEnv toyDigest toyKey).1 toyAddr = (false, none) ∧
    ValidateSig toyEnv toyDigest (SignData toyEnv toyDigest toyKey).1 toyAddr ≠ (true, none) :=
  ⟨by decide, by decide, by decide, rfl, by decide,
    (sign_validate_roundtrip_fails toyEnv toyEnv_recoverVerifyContract).1
      toyDigest toyKey toyAddr (by decide)⟩

/-! ## The block lifecycle claim -/

theorem getBlock_proposeBlock (vm : VM) (r : FixedBytes (DataLen + SigLen)) (id : ID) :
    getBlock (proposeBlock vm r) id = getBlock vm id := rfl

theorem accept_eq_ok (vm vmA : VM) (b : Block) (h : accept vm b = Except.ok vmA) :
    vmA = acceptedVM vm b := by
  unfold accept at h
  split at h
  · cases h
  · split at h
    · cases h
      rfl
    · split at h
      · cases h
      · split at h
        · cases h
        · cases h
          rfl

theorem getBlock_acceptedVM (vm : VM) (b : Block) :
    getBlock (acceptedVM vm b) b.id = Except.ok { b with status := Status.Accepted } := by
  simp [getBlock, acceptedVM, List.lookup_cons]

/-- After a proposal of the record `r` to a VM whose preference is a known block,
`buildBlock()` returns a Processing block whose data is the first 32 bytes of
`r` and whose signature is the last 64 bytes of `r` (the `DecodeMempool` split),
with parent the current preference; the Chain Store is untouched. -/
theorem buildBlock_proposeBlock (cfg : Config) (vm : VM) (r : FixedBytes (DataLen + SigLen))
    (now : Nat) (registrant : Address) (pref : Block)
    (hpref : getBlock vm vm.preferred = Except.ok pref) :
    buildBlock cfg (proposeBlock vm r) now registrant =
      Except.ok (builtBlock cfg (proposeBlock vm r) pref now registrant,
        builtVM cfg (proposeBlock vm r) pref now registrant) ∧
    (builtBlock cfg (proposeBlock vm r) pref now registrant).data.val = r.val.take 32 ∧
    (builtBlock cfg (proposeBlock vm r) pref now registrant).signature.val =
      (r.val.drop 32).take 64 ∧
    ((builtBlock cfg (proposeBlock vm r) pref now registrant).data,
      (builtBlock cfg (proposeBlock vm r) pref now registrant).signature) = DecodeMempool r ∧
    (builtBlock cfg (proposeBlock vm r) pref now registrant).parentID = vm.preferred ∧
    (builtBlock cfg (proposeBlock vm r) pref now registrant).status = Status.Processing ∧
    (builtVM cfg (proposeBlock vm r) pref now registrant).state = vm.state := by
  have hdata : (builtBlock cfg (proposeBlock vm r) pref now registrant).data =
      (DecodeMempool r).1 := rfl
  have hsig : (builtBlock cfg (proposeBlock vm r) pref now registrant).signature =
      (DecodeMempool r).2 := rfl
  refine ⟨?_, ?_, ?_, ?_, rfl, rfl, rfl⟩
  · have hp : getBlock (proposeBlock vm r) (proposeBlock vm r).preferred = Except.ok pref := by
      rw [getBlock_proposeBlock]
      exact hpref
    simp only [buildBlock, hp]
  · rw [hdata, DecodeMempool_fst]
  · rw [hsig, DecodeMempool_snd]
  · rw [hdata, hsig]

/-- Once `accept()` has succeeded on a block, `lastAccepted()` is that block's
id and `getBlock` of it returns the block, now Accepted, with the same data,
signature and parent. -/
theorem accept_lastAccepted (vm vmA : VM) (b : Block) (h : accept vm b = Except.ok vmA) :
    lastAccepted vmA = b.id ∧
    getBlock vmA b.id = Except.ok { b with status := Status.Accepted } := by
  have hA := accept_eq_ok vm vmA b h
  subst hA
  exact ⟨rfl, getBlock_acceptedVM vm b⟩

/-- Under the contracts of `RecoverPubkey` and `VerifySignature`, the signature
check of `verify()` fails on every block whose data is not all zero. -/
theorem signatureOK_eq_false (cfg : Config) (hc : RecoverVerifyContract cfg.env) (b : Block)
    (hnz : b.data ≠ zeroArray 32) : signatureOK cfg b = false := by
  have hf := ValidateSig_fst_false cfg.env hc b.data.val b.signature.val b.registrant
  have hne : ValidateSig cfg.env b.data.val b.signature.val b.registrant ≠ (true, none) := by
    intro h
    rw [h] at hf
    cases hf
  simp [signatureOK, hnz, hne]

/-- A block that fails the signature check does not pass `verify()`. -/
theorem verify_ne_ok (cfg : Config) (vm : VM) (b : Block) (h : signatureOK cfg b = false) :
    verify cfg vm b ≠ Except.ok () := by
  unfold verify
  intro hv
  split at hv
  · simp [h] at hv
  · split at hv
    · split at hv <;> cases hv
    · split at hv
      · cases hv
      · simp [h] at hv

/-- C8 fails on the code. For every 96-byte record `r` with non-zero data
proposed to an initialized VM with an empty mempool whose preference is a known
block, the next `buildBlock()` does return a block carrying the `DecodeMempool`
split of `r` on top of the preference; but under the contracts of
`RecoverPubkey` and `VerifySignature` its signature check fails, so `verify()`
does not succeed on it, whatever the registrant: the state "after verify and
accept" is not reached. -/
theorem verify_rejects_built_block (cfg : Config) (hc : RecoverVerifyContract cfg.env)
    (vm : VM) (r : FixedBytes (DataLen + SigLen)) (now : Nat) (registrant : Address)
    (pref : Block)
    (_hinit : vm.state.initialized = true) (_hempty : vm.mempool = none)
    (hpref : getBlock vm vm.preferred = Except.ok pref)
    (hnz : (DecodeMempool r).1 ≠ zeroArray 32) :
    buildBlock cfg (proposeBlock vm r) now registrant =
      Except.ok (builtBlock cfg (proposeBlock vm r) pref now registrant,
        builtVM cfg (proposeBlock vm r) pref now registrant) ∧
    (builtBlock cfg (proposeBlock vm r) pref now registrant).data.val = r.val.take 32 ∧
    (builtBlock cfg (proposeBlock vm r) pref now registrant).signature.val =
      (r.val.drop 32).take 64 ∧
    (builtBlock cfg (proposeBlock vm r) pref now registrant).parentID = vm.preferred ∧
    ValidateSig cfg.env (builtBlock cfg (proposeBlock vm r) pref now registrant).data.val
      (builtBlock cfg (proposeBlock vm r) pref now registrant).signature.val registrant ≠
      (true, none) ∧
    signatureOK cfg (builtBlock cfg (proposeBlock vm r) pref now registrant) = false ∧
    verify cfg (builtVM cfg (proposeBlock vm r) pref now registrant)
      (builtBlock cfg (proposeBlock vm r) pref now registrant) ≠ Except.ok () := by
  have hb := buildBlock_proposeBlock cfg vm r now registrant pref hpref
  have hs : signatureOK cfg (builtBlock cfg (proposeBlock vm r) pref now registrant) = false :=
    signatureOK_eq_false cfg hc _ hnz
  refine ⟨hb.1, hb.2.1, hb.2.2.1, hb.2.2.2.2.1, ?_, hs, verify_ne_ok cfg _ _ hs⟩
  intro h
  have hf := ValidateSig_fst_false cfg.env hc
    (builtBlock cfg (proposeBlock vm r) pref now registrant).data.val
    (builtBlock cfg (proposeBlock vm r) pref now registrant).signature.val registrant
  rw [h] at hf
  cases hf

/-- The data `TestHappyPath` expects in the first accepted block is not the
first 32 bytes of the record it proposes. -/
theorem testExpectedData_ne_proposed :
    testExpectedData.val ≠ (DecodeMempool testArray).1.val ∧
    (DecodeMempool testArray).1.val = testDataSig.take 32 := by
  constructor <;> decide

/-- C8 at the input of `TestHappyPath`: on the VM with zeroed genesis,
preference the genesis block and empty mempool, the record `testArray` is
proposed. The built block carries the first 32 and the last 64 bytes of
`testDataSig` on top of genesis; `ValidateSig` on them returns an error, since
the 64-byte signature is not accepted for recovery; and `verify()` on the built
block returns the bad-signature error. -/
theorem verify_rejects_built_block_witness :
    (builtBlock toyConfig (proposeBlock testVM testArray) testGenesis 1 (zeroArray 20)).data.val =
      testDataSig.take 32 ∧
    (builtBlock toyConfig (proposeBlock testVM testArray) testGenesis 1
      (zeroArray 20)).signature.val = testDataSig.drop 32 ∧
    (builtBlock toyConfig (proposeBlock testVM testArray) testGenesis 1 (zeroArray 20)).parentID =
      testGenesis.id ∧
    ValidateSig toyEnv (testDataSig.take 32) (testDataSig.drop 32) (zeroArray 20) =
      (false, some "invalid signature length") ∧
    verify toyConfig
      (builtVM toyConfig (proposeBlock testVM testArray) testGenesis 1 (zeroArray 20))
      (builtBlock toyConfig (proposeBlock testVM testArray) testGenesis 1 (zeroArray 20)) =
      Except.error VMError.badSignature ∧
    verify toyConfig
      (builtVM toyConfig (proposeBlock testVM testArray) testGenesis 1 (zeroArray 20))
      (builtBlock toyConfig (proposeBlock testVM testArray) testGenesis 1 (zeroArray 20)) ≠
      Except.ok () := by
  have h := verify_rejects_built_block toyConfig toyEnv_recoverVerifyContract testVM testArray 1
    (zeroArray 20) testGenesis (by decide) (by decide) (by decide) (by decide)
  refine ⟨?_, ?_, ?_, by decide, by decide, h.2.2.2.2.2.2⟩
  · rw [h.2.1]
    decide
  · rw [h.2.2.1]
    decide
  · rw [h.2.2.2.1]
    decide

end TimestampVM
